import Mathlib

/-!
Shallow embedding of the PokeBinder card-viewer application
(source: src/src/App.vue, the single script of the repository).

The component state is the seven `ref`s declared at the top of the script.
Network calls are modelled by passing the response as an explicit
`FetchResult` argument; the query string of an issued search request is
returned alongside the new state, so that "no request is issued" is the
statement that this component is `none`.  The debounce utility is modelled
both as a timer-state transformer (`debInvoke`, the body of the wrapper
returned by `debounce`) and denotationally by `quietFires`, which maps a
time-stamped trace of wrapper invocations to the executions of the
underlying callback that the `clearTimeout`/`setTimeout` pair produces.
-/

/-- A card record as consumed from the TCGdex API: both the abbreviated
objects of the list endpoint and the full objects of the detail endpoint
are of this shape (the list endpoint simply omits fields such as `hp`). -/
structure Card where
  id : String
  name : String
  image : String
  hp : Option Nat
  weaknesses : List (String × String)
deriving Repr, DecidableEq

/-- The parsed JSON body of a search response: either an array of cards or
some non-array value (`Array.isArray(data)` is false). -/
inductive Payload where
  | arr (cards : List Card)
  | nonArr
deriving Repr, DecidableEq

/-- Outcome of one `fetch`: `ok` carries the parsed body of a 2xx response;
`err` is a non-2xx status or a transport error, both of which reach the
`catch` block in the source. -/
inductive FetchResult (α : Type) where
  | ok (data : α)
  | err
deriving Repr, DecidableEq

/-- The seven reactive state fields of App.vue (lines 5-11). -/
structure AppState where
  card : Option Card
  searchQuery : String
  searchResults : List Card
  selectedCard : Option Card
  previewCard : Option Card
  isSearching : Bool
  searchError : Option String
deriving Repr, DecidableEq

/-- State at script evaluation: every ref starts at its initializer. -/
def initialState : AppState :=
  { card := none
    searchQuery := ""
    searchResults := []
    selectedCard := none
    previewCard := none
    isSearching := false
    searchError := none }

/-- The timer cell captured by the debounce wrapper: `none` when no call is
pending, `some (t, a)` when a call with arguments `a` is scheduled to run
at absolute time `t`. -/
structure Deb (α : Type) where
  pending : Option (Nat × α)
deriving Repr, DecidableEq

/-- One invocation of the wrapper returned by `debounce` (lines 18-21),
at absolute time `now`: `clearTimeout(timeoutId)` discards whatever was
pending and `setTimeout(..., delay)` schedules `fn(...args)` at
`now + delay`. -/
def debInvoke (delay now : Nat) (a : α) (_ : Deb α) : Deb α :=
  { pending := some (now + delay, a) }

/-- Denotation of the debounce wrapper on a whole trace: given the
time-stamped invocations of the wrapper (in increasing time order), the
list of executions of the underlying callback, each as (execution time,
arguments).  An invocation fires at its time plus `delay` unless the next
invocation arrives strictly earlier and cancels it. -/
def quietFires (delay : Nat) : List (Nat × α) → List (Nat × α)
  | [] => []
  | [(t, a)] => [(t + delay, a)]
  | (t, a) :: (t2, b) :: rest =>
    if t + delay ≤ t2 then (t + delay, a) :: quietFires delay ((t2, b) :: rest)
    else quietFires delay ((t2, b) :: rest)

/-- The debounce delay used for the search (line 57). -/
def searchDelay : Nat := 300

/-- The fixed user-facing search error message (line 45). -/
def searchErrorMsg : String := "Failed to search cards. Please try again."

/-- URL of a search request for query `q` (lines 34-36). -/
def searchUrl (q : String) : String :=
  "https://api.tcgdex.net/v2/en/cards?name=" ++ q

/-- URL of a card detail request (lines 81-83). -/
def detailUrl (id : String) : String :=
  "https://api.tcgdex.net/v2/en/cards/" ++ id

/-- The hardcoded URL fetched once at mount (lines 122-124). -/
def defaultCardUrl : String :=
  "https://api.tcgdex.net/v2/en/cards/swsh3-136"

/-- The body of `search` (lines 26-54).  `resp` is the response the network
would deliver; the second component of the result is the URL of the search
request that was issued, or `none` when the guard `searchQuery.length > 2`
suppressed the fetch.  The error ref is nulled first; in the long-query
branch `isSearching` is raised, the fetch runs, and on `ok` the results
become the payload when it is an array and `[]` otherwise, while on `err`
the catch block stores the fixed message and empties the results; the
short-query branch only empties the results. -/
def search (resp : FetchResult Payload) (s : AppState) : AppState × Option String :=
  let s0 := { s with searchError := none }
  if 2 < s0.searchQuery.length then
    let s1 := { s0 with isSearching := true }
    match resp with
    | .ok data =>
      ({ s1 with
          searchResults := (match data with | .arr cards => cards | .nonArr => [])
          isSearching := false },
       some (searchUrl s0.searchQuery))
    | .err =>
      ({ s1 with
          searchError := some searchErrorMsg
          searchResults := []
          isSearching := false },
       some (searchUrl s0.searchQuery))
  else
    ({ s0 with searchResults := [], isSearching := false }, none)

/-- A change of `searchQuery` to `q` at time `now`, followed by the watcher
body (lines 60-69): a zero-length query empties the results and lowers
`isSearching` at once, touching neither the preview nor the timer cell of
`debouncedSearch`; a positive-length query invokes `debouncedSearch()`,
which re-arms the timer. -/
def queryChange (q : String) (now : Nat) (s : AppState) (d : Deb Unit) :
    AppState × Deb Unit :=
  let s0 := { s with searchQuery := q }
  if s0.searchQuery.length = 0 then
    ({ s0 with searchResults := [], isSearching := false }, d)
  else
    (s0, debInvoke searchDelay now () d)

/-- The body of `selectCard` (lines 73-93): the search UI is cleared first
(results, query text, preview), then the detail fetch either delivers the
full record, which becomes the selected card, or fails, in which case the
originating search-result record `result` becomes the selected card. -/
def selectCard (resp : FetchResult Card) (result : Card) (s : AppState) : AppState :=
  let s0 := { s with searchResults := [], searchQuery := "", previewCard := none }
  match resp with
  | .ok full => { s0 with selectedCard := some full }
  | .err => { s0 with selectedCard := some result }

/-- `showPreview` (lines 97-99). -/
def showPreview (result : Card) (s : AppState) : AppState :=
  { s with previewCard := some result }

/-- `hidePreview` (lines 102-104). -/
def hidePreview (s : AppState) : AppState :=
  { s with previewCard := none }

/-- `clearSelection` (lines 107-109). -/
def clearSelection (s : AppState) : AppState :=
  { s with selectedCard := none }

/-- `selectedCard.value || card.value` of the `cardImageUrl` computed
property (line 114): the card currently shown. -/
def activeCard (s : AppState) : Option Card :=
  match s.selectedCard with
  | some c => some c
  | none => s.card

/-- The `cardImageUrl` computed property (lines 113-116). -/
def cardImageUrl (s : AppState) : String :=
  match activeCard s with
  | some c => c.image ++ "/high.webp"
  | none => ""

/-- The `onMounted` body (lines 120-132): the default-card fetch either
stores its payload in `card` or, on failure, changes nothing (the catch
block only logs). -/
def loadDefaultCard (resp : FetchResult Card) (s : AppState) : AppState :=
  match resp with
  | .ok data => { s with card := some data }
  | .err => s

/-- The default card of the worked examples of the API (id swsh3-136). -/
def furret : Card :=
  { id := "swsh3-136"
    name := "Furret"
    image := "https://assets.tcgdex.net/en/swsh/swsh3/136"
    hp := some 110
    weaknesses := [("Fighting", "×2")] }

example : (search .err initialState).2 = none := by decide
example :
    (search (.ok (.arr [furret])) { initialState with searchQuery := "fur" }).1.searchResults
      = [furret] := by decide

/-- C1: for every query of length < 3 (the empty query included), the search
pipeline — the query change with its watcher, the debounce fire, and the
search body — issues no network request and leaves the result list empty. -/
theorem C1_short_query_no_request (q : String) (hq : q.length < 3)
    (s : AppState) (d : Deb Unit) (now : Nat) (resp : FetchResult Payload) :
    (search resp (queryChange q now s d).1).2 = none ∧
    (search resp (queryChange q now s d).1).1.searchResults = [] := by
  have hq2 : ¬ 2 < q.length := by omega
  unfold queryChange search
  by_cases h0 : q.length = 0 <;> simp [h0, hq2]

/-- Witness for C1 at the two-character query "pi". -/
theorem C1_short_query_no_request_witness :
    "pi".length < 3 ∧
    ((search .err (queryChange "pi" 0 initialState ⟨none⟩).1).2 = none ∧
     (search .err (queryChange "pi" 0 initialState ⟨none⟩).1).1.searchResults = []) :=
  ⟨by decide, C1_short_query_no_request "pi" (by decide) initialState ⟨none⟩ 0 .err⟩

/-- C2: selecting a search result always empties the query text, the result
list and the preview, and always ends with a non-null selected card: the
full fetched record when the detail request succeeds, the originating
search-result record when it fails; the failure path leaves the search
error untouched (no user-facing error is set). -/
theorem C2_select_card (resp : FetchResult Card) (result : Card) (s : AppState) :
    (selectCard resp result s).searchQuery = "" ∧
    (selectCard resp result s).searchResults = [] ∧
    (selectCard resp result s).previewCard = none ∧
    (selectCard resp result s).selectedCard ≠ none ∧
    (∀ full, resp = .ok full → (selectCard resp result s).selectedCard = some full) ∧
    (resp = .err → (selectCard resp result s).selectedCard = some result ∧
      (selectCard resp result s).searchError = s.searchError) := by
  cases resp <;> simp [selectCard]

/-- Witness for C2: selecting `furret` from the initial state with a failing
detail fetch. -/
theorem C2_select_card_witness :
    (selectCard .err furret initialState).searchQuery = "" ∧
    (selectCard .err furret initialState).searchResults = [] ∧
    (selectCard .err furret initialState).previewCard = none ∧
    (selectCard .err furret initialState).selectedCard = some furret ∧
    (selectCard .err furret initialState).searchError = initialState.searchError := by
  obtain ⟨h1, h2, h3, _, _, h6⟩ := C2_select_card .err furret initialState
  exact ⟨h1, h2, h3, (h6 rfl).1, (h6 rfl).2⟩

/-- C4: a successful (2xx) search response with a long enough query stores
the payload as the result list when the payload is an array, and the empty
list when it is not array-shaped; in both cases the error is cleared and
the loading flag lowered. -/
theorem C4_search_success (s : AppState) (h : 2 < s.searchQuery.length)
    (data : Payload) :
    (∀ cards, data = .arr cards → (search (.ok data) s).1.searchResults = cards) ∧
    (data = .nonArr → (search (.ok data) s).1.searchResults = []) ∧
    (search (.ok data) s).1.searchError = none ∧
    (search (.ok data) s).1.isSearching = false := by
  cases data <;> simp [search, h]

/-- Witness for C4 at the query "fur" and the one-card array payload. -/
theorem C4_search_success_witness :
    2 < ("fur" : String).length ∧
    (search (.ok (.arr [furret])) { initialState with searchQuery := "fur" }).1.searchResults
        = [furret] ∧
    (search (.ok (.arr [furret])) { initialState with searchQuery := "fur" }).1.searchError
        = none ∧
    (search (.ok (.arr [furret])) { initialState with searchQuery := "fur" }).1.isSearching
        = false := by
  obtain ⟨ha, _, he, hl⟩ :=
    C4_search_success { initialState with searchQuery := "fur" } (by decide) (.arr [furret])
  exact ⟨by decide, ha [furret] rfl, he, hl⟩

/-- C5: a failed search request (non-2xx status or transport error, both of
which reach the catch block) stores the fixed user-facing error message,
empties the result list and lowers the loading flag. -/
theorem C5_search_failure (s : AppState) (h : 2 < s.searchQuery.length) :
    (search .err s).1.searchError = some searchErrorMsg ∧
    (search .err s).1.searchResults = [] ∧
    (search .err s).1.isSearching = false ∧
    (search .err s).2 = some (searchUrl s.searchQuery) := by
  simp [search, h]

/-- Witness for C5 at the query "fur". -/
theorem C5_search_failure_witness :
    2 < ("fur" : String).length ∧
    ((search .err { initialState with searchQuery := "fur" }).1.searchError
        = some searchErrorMsg ∧
     (search .err { initialState with searchQuery := "fur" }).1.searchResults = [] ∧
     (search .err { initialState with searchQuery := "fur" }).1.isSearching = false ∧
     (search .err { initialState with searchQuery := "fur" }).2
        = some (searchUrl "fur")) :=
  ⟨by decide, C5_search_failure { initialState with searchQuery := "fur" } (by decide)⟩

/-- C7: `clearSelection` is idempotent — it nulls the selected card,
composing it with itself equals a single call, and from a state with no
selection it changes nothing. -/
theorem C7_clear_selection_idempotent (s : AppState) :
    clearSelection (clearSelection s) = clearSelection s ∧
    (clearSelection s).selectedCard = none ∧
    (s.selectedCard = none → clearSelection s = s) := by
  refine ⟨rfl, rfl, fun h => ?_⟩
  cases s
  simp only [clearSelection]
  simp_all

/-- Witness for C7 at the initial state, whose selection is empty. -/
theorem C7_clear_selection_idempotent_witness :
    clearSelection (clearSelection initialState) = clearSelection initialState ∧
    (clearSelection initialState).selectedCard = none ∧
    clearSelection initialState = initialState := by
  obtain ⟨h1, h2, h3⟩ := C7_clear_selection_idempotent initialState
  exact ⟨h1, h2, h3 rfl⟩

/-- A state in which results are shown, a result is hovered and a debounce
is pending: three characters were typed and the timer from the last
keystroke has not yet fired. -/
def hoverState : AppState :=
  { initialState with
      searchQuery := "fur"
      searchResults := [furret]
      previewCard := some furret }

/-- The pending debounce of `hoverState`: armed at time 100, due at 400. -/
def hoverDeb : Deb Unit := ⟨some (400, ())⟩

/-- C3 as written is false: emptying the query neither empties the preview
state nor cancels the pending debounce — the watcher branch for a
zero-length query touches only `searchResults` and `isSearching`, and the
timer cell of `debouncedSearch` is out of its reach. -/
theorem C3_counterexample :
    (queryChange "" 150 hoverState hoverDeb).1.previewCard ≠ none ∧
    (queryChange "" 150 hoverState hoverDeb).2.pending ≠ none := by
  decide

/-- C3 amended: whenever the query becomes the empty string the result list
is synchronously emptied and the loading flag lowered; the pending debounce
is left armed and the preview state is left as it was, but when the pending
debounce later fires, the search body sees the empty query, issues no
request and leaves the result list empty. -/
theorem C3_empty_query_clears_results (s : AppState) (d : Deb Unit) (now : Nat) :
    (queryChange "" now s d).1.searchResults = [] ∧
    (queryChange "" now s d).1.isSearching = false ∧
    (queryChange "" now s d).2 = d ∧
    (queryChange "" now s d).1.previewCard = s.previewCard ∧
    (∀ resp, (search resp (queryChange "" now s d).1).2 = none ∧
      (search resp (queryChange "" now s d).1).1.searchResults = []) := by
  refine ⟨by simp [queryChange], by simp [queryChange], by simp [queryChange],
    by simp [queryChange], fun resp => ?_⟩
  simp [queryChange, search]

/-- C8: the default-card load, run once by `onMounted` from the initial
state, fetches the one hardcoded URL (card swsh3-136); on success the
payload becomes the default card, on failure the state is left exactly as
it was — the default card stays `none` and no error field is touched. -/
theorem C8_default_card_load (resp : FetchResult Card) :
    defaultCardUrl = detailUrl "swsh3-136" ∧
    (∀ data, resp = .ok data →
      loadDefaultCard resp initialState = { initialState with card := some data }) ∧
    (resp = .err → loadDefaultCard resp initialState = initialState ∧
      (loadDefaultCard resp initialState).card = none ∧
      (loadDefaultCard resp initialState).searchError = none) := by
  cases resp <;> simp [loadDefaultCard, defaultCardUrl, detailUrl, initialState]

/-- Witness for C8 on both outcomes of the mount-time fetch. -/
theorem C8_default_card_load_witness :
    (loadDefaultCard (.ok furret) initialState
        = { initialState with card := some furret }) ∧
    loadDefaultCard .err initialState = initialState := by
  refine ⟨(C8_default_card_load (.ok furret)).2.1 furret rfl, ?_⟩
  exact ((C8_default_card_load .err).2.2 rfl).1

/-- C9: no operation after mount writes the default card — search, card
selection, both preview operations, clearing the selection and query
changes all leave the `card` field unchanged — and the active card for
display is the selected card when one is present and the default card
otherwise. -/
theorem C9_default_card_frame (s : AppState) :
    (∀ resp, (search resp s).1.card = s.card) ∧
    (∀ resp result, (selectCard resp result s).card = s.card) ∧
    (∀ result, (showPreview result s).card = s.card) ∧
    (hidePreview s).card = s.card ∧
    (clearSelection s).card = s.card ∧
    (∀ q now d, (queryChange q now s d).1.card = s.card) ∧
    (∀ c, s.selectedCard = some c → activeCard s = some c) ∧
    (s.selectedCard = none → activeCard s = s.card) := by
  refine ⟨fun resp => ?_, fun resp result => ?_, fun result => rfl, rfl, rfl,
    fun q now d => ?_, fun c hc => ?_, fun hn => ?_⟩
  · cases resp <;> (simp only [search]; split <;> rfl)
  · cases resp <;> rfl
  · simp only [queryChange]
    split <;> rfl
  · simp [activeCard, hc]
  · simp [activeCard, hn]

/-- Witness for C9: selecting with a failing fetch keeps the default card,
and the active card is the selection when present, the default otherwise. -/
theorem C9_default_card_frame_witness :
    (selectCard .err furret initialState).card = initialState.card ∧
    activeCard { initialState with selectedCard := some furret } = some furret ∧
    activeCard initialState = initialState.card := by
  refine ⟨(C9_default_card_frame initialState).2.1 .err furret, ?_, ?_⟩
  · exact ((C9_default_card_frame
      { initialState with selectedCard := some furret }).2.2.2.2.2.2.1) furret rfl
  · exact (C9_default_card_frame initialState).2.2.2.2.2.2.2 rfl

/-- C10: every invocation of the search body nulls the error first — a
short-query invocation, which issues no request, therefore ends with no
error even when one was displayed — while emptying the query goes through
the watcher branch that clears results without invoking the search body,
so an error displayed before the query was emptied is still there after. -/
theorem C10_error_persists_on_empty_query (s s2 : AppState)
    (resp : FetchResult Payload) (d : Deb Unit) (now : Nat) (e : String)
    (hq : s.searchQuery.length < 3) (he : s2.searchError = some e) :
    (search resp s).1.searchError = none ∧
    (search resp s).2 = none ∧
    (queryChange "" now s2 d).1.searchError = some e ∧
    (queryChange "" now s2 d).1.searchResults = [] ∧
    (queryChange "" now s2 d).2 = d := by
  have hq2 : ¬ 2 < s.searchQuery.length := by omega
  refine ⟨?_, ?_, ?_, ?_, ?_⟩ <;> simp [search, queryChange, hq2, he]

/-- A state in which a search error from an earlier failed search is on
display. -/
def errState : AppState :=
  { initialState with searchError := some searchErrorMsg }

/-- `errState` after the user has typed the two-character query "pi". -/
def errPiState : AppState :=
  { errState with searchQuery := "pi" }

/-- Witness for C10: the displayed error survives emptying the query, and a
short-query search invocation ends with no error. -/
theorem C10_error_persists_on_empty_query_witness :
    ("pi" : String).length < 3 ∧
    (search .err errPiState).1.searchError = none ∧
    (queryChange "" 500 errState ⟨none⟩).1.searchError = some searchErrorMsg := by
  obtain ⟨h1, _, h3, _, _⟩ :=
    C10_error_persists_on_empty_query errPiState errState
      .err ⟨none⟩ 500 searchErrorMsg (by decide) rfl
  exact ⟨by decide, h1, h3⟩

/-- Every execution produced by the debounce wrapper decomposes the trace at
the invocation that scheduled it: the execution happens `delay` after that
invocation, carries its arguments, and the invocation immediately after it
(when one exists) arrived no earlier than the execution time. -/
lemma quietFires_mem_decomp {α : Type} (delay : Nat) (trace : List (Nat × α)) :
    ∀ p ∈ quietFires delay trace,
      ∃ pre t a suf, trace = pre ++ (t, a) :: suf ∧ p = (t + delay, a) ∧
        ∀ t2 b suf2, suf = (t2, b) :: suf2 → t + delay ≤ t2 := by
  induction trace with
  | nil => simp [quietFires]
  | cons hd tl ih =>
    obtain ⟨t, a⟩ := hd
    cases tl with
    | nil =>
      intro p hp
      simp only [quietFires, List.mem_singleton] at hp
      exact ⟨[], t, a, [], rfl, hp, by intro t2 b suf2 h; cases h⟩
    | cons hd2 tl2 =>
      obtain ⟨t2, b⟩ := hd2
      intro p hp
      simp only [quietFires] at hp
      by_cases hq : t + delay ≤ t2
      · rw [if_pos hq] at hp
        rcases List.mem_cons.mp hp with h | h
        · refine ⟨[], t, a, (t2, b) :: tl2, rfl, h, ?_⟩
          intro t3 c suf3 h3
          obtain ⟨h31, _⟩ := List.cons.inj h3
          obtain ⟨h32, _⟩ := Prod.mk.inj h31
          omega
        · obtain ⟨pre, t', a', suf, hdec, hpe, hqc⟩ := ih p h
          exact ⟨(t, a) :: pre, t', a', suf, by rw [List.cons_append, ← hdec], hpe, hqc⟩
      · rw [if_neg hq] at hp
        obtain ⟨pre, t', a', suf, hdec, hpe, hqc⟩ := ih p hp
        exact ⟨(t, a) :: pre, t', a', suf, by rw [List.cons_append, ← hdec], hpe, hqc⟩

/-- On a strictly increasing trace, no callback execution can happen earlier
than `delay` after the first invocation. -/
lemma quietFires_time_lb {α : Type} (delay t0 : Nat) (a0 : α) (rest : List (Nat × α))
    (hs : ((t0, a0) :: rest).Pairwise (fun p q => p.1 < q.1)) :
    ∀ p ∈ quietFires delay ((t0, a0) :: rest), t0 + delay ≤ p.1 := by
  intro p hp
  obtain ⟨pre, t, a, suf, hdec, hpe, _⟩ := quietFires_mem_decomp delay _ p hp
  have hmem : (t, a) ∈ (t0, a0) :: rest := by
    rw [hdec]
    exact List.mem_append_right _ (List.mem_cons_self _ _)
  have ht0 : t0 ≤ t := by
    rcases List.mem_cons.mp hmem with h | h
    · obtain ⟨h1, _⟩ := Prod.mk.inj h.symm
      omega
    · have := (List.pairwise_cons.mp hs).1 (t, a) h
      exact le_of_lt this
  rw [hpe]
  simpa using Nat.add_le_add_right ht0 delay

/-- On a strictly increasing trace, an invocation that is superseded by a
further invocation strictly before its deadline never leads to a callback
execution at that deadline. -/
lemma quietFires_superseded {α : Type} (delay : Nat) :
    ∀ (pre : List (Nat × α)) (t : Nat) (a : α) (t2 : Nat) (b : α)
      (suf : List (Nat × α)) (c : α),
      (pre ++ (t, a) :: (t2, b) :: suf).Pairwise (fun p q => p.1 < q.1) →
      t2 < t + delay →
      (t + delay, c) ∉ quietFires delay (pre ++ (t, a) :: (t2, b) :: suf) := by
  intro pre
  induction pre with
  | nil =>
    intro t a t2 b suf c hs hlt hmem
    rw [List.nil_append] at hs hmem
    rw [quietFires, if_neg (by omega)] at hmem
    have hlb := quietFires_time_lb delay t2 b suf hs.of_cons (t + delay, c) hmem
    have ht : t < t2 := (List.pairwise_cons.mp hs).1 (t2, b) (List.mem_cons_self _ _)
    simp at hlb
    omega
  | cons hd tl ih =>
    intro t a t2 b suf c hs hlt hmem
    obtain ⟨t0, a0⟩ := hd
    rw [List.cons_append] at hs hmem
    have hne : tl ++ (t, a) :: (t2, b) :: suf ≠ [] := by
      cases tl <;> simp
    obtain ⟨⟨t1, a1⟩, rest, hr⟩ := List.exists_cons_of_ne_nil hne
    rw [hr, quietFires] at hmem
    have ht0t : t0 < t := by
      refine (List.pairwise_cons.mp hs).1 (t, a) ?_
      exact List.mem_append_right _ (List.mem_cons_self _ _)
    have hnothead : ((t + delay, c) : Nat × α) ≠ (t0 + delay, a0) := by
      intro h
      obtain ⟨h1, _⟩ := Prod.mk.inj h
      omega
    have htail : (t + delay, c) ∈ quietFires delay ((t1, a1) :: rest) := by
      by_cases hcase : t0 + delay ≤ t1
      · rw [if_pos hcase] at hmem
        rcases List.mem_cons.mp hmem with h | h
        · exact absurd h hnothead
        · exact h
      · rw [if_neg hcase] at hmem
        exact hmem
    rw [← hr] at htail
    exact ih t a t2 b suf c hs.of_cons hlt htail

/-- On a strictly increasing trace, the callback executions are themselves
strictly increasing in time — in particular pairwise distinct, so each
quiet period yields at most one execution. -/
lemma quietFires_pairwise {α : Type} (delay : Nat) :
    ∀ trace : List (Nat × α), trace.Pairwise (fun p q => p.1 < q.1) →
      (quietFires delay trace).Pairwise (fun p q => p.1 < q.1) := by
  intro trace
  induction trace with
  | nil => simp [quietFires]
  | cons hd tl ih =>
    obtain ⟨t, a⟩ := hd
    cases tl with
    | nil => intro _; simp [quietFires]
    | cons hd2 tl2 =>
      obtain ⟨t2, b⟩ := hd2
      intro hs
      have hs2 := hs.of_cons
      have ht : t < t2 := (List.pairwise_cons.mp hs).1 (t2, b) (List.mem_cons_self _ _)
      rw [quietFires]
      by_cases hq : t + delay ≤ t2
      · rw [if_pos hq]
        refine List.pairwise_cons.mpr ⟨?_, ih hs2⟩
        intro p hp
        have hlb := quietFires_time_lb delay t2 b tl2 hs2 p hp
        simp only
        omega
      · rw [if_neg hq]
        exact ih hs2

/-- On a strictly increasing trace, a callback execution at time `ft` with
arguments `a` stems from the invocation `(ft - delay, a)`, and every
invocation strictly before `ft` is no later than that one: the execution
uses the arguments of the most recent invocation preceding it. -/
lemma quietFires_most_recent {α : Type} (delay : Nat) (trace : List (Nat × α))
    (hs : trace.Pairwise (fun p q => p.1 < q.1)) :
    ∀ ft a, (ft, a) ∈ quietFires delay trace →
      delay ≤ ft ∧ (ft - delay, a) ∈ trace ∧
      ∀ q ∈ trace, q.1 < ft → q.1 ≤ ft - delay := by
  intro ft a hmem
  obtain ⟨pre, t, a', suf, hdec, hpe, hquiet⟩ := quietFires_mem_decomp delay trace _ hmem
  obtain ⟨hft, rfl⟩ := Prod.mk.inj hpe
  subst hft
  refine ⟨by omega, ?_, ?_⟩
  · have : t + delay - delay = t := by omega
    rw [this, hdec]
    exact List.mem_append_right _ (List.mem_cons_self _ _)
  · intro q hq hqlt
    have ht : t + delay - delay = t := by omega
    rw [ht]
    rw [hdec] at hs hq
    obtain ⟨hpre, hcons, hcross⟩ := List.pairwise_append.mp hs
    rcases List.mem_append.mp hq with h | h
    · exact le_of_lt (hcross q h (t, a) (List.mem_cons_self _ _))
    · rcases List.mem_cons.mp h with h | h
      · rw [h]
      · exfalso
        cases suf with
        | nil => cases h
        | cons hd2 suf2 =>
          obtain ⟨t2, b⟩ := hd2
          have h2 : t + delay ≤ t2 := hquiet t2 b suf2 rfl
          have hq2 : t2 ≤ q.1 := by
            rcases List.mem_cons.mp h with h | h
            · rw [h]
            · exact le_of_lt ((List.pairwise_cons.mp hcons.of_cons).1 q h)
          omega

/-- C6: the debounce wrapper cancels on every invocation (one invocation of
`debInvoke` discards whatever was pending and schedules exactly at
`now + delay`); over any strictly time-increasing trace of invocations the
underlying callback runs at most once per quiet period (execution times
are strictly increasing, hence distinct), each execution occurring `delay`
after the most recent invocation preceding it and with the arguments of
that invocation; an invocation superseded strictly before its deadline
never leads to an execution; the search instance uses the 300ms delay and
any request a search-body run issues carries the query text current at
fire time. -/
theorem C6_debounce_contract {α : Type} (delay : Nat) (trace : List (Nat × α))
    (hs : trace.Pairwise (fun p q => p.1 < q.1)) :
    searchDelay = 300 ∧
    (∀ (d : Deb α) (now : Nat) (a : α),
      (debInvoke delay now a d).pending = some (now + delay, a)) ∧
    (∀ ft a, (ft, a) ∈ quietFires delay trace →
      delay ≤ ft ∧ (ft - delay, a) ∈ trace ∧
      ∀ q ∈ trace, q.1 < ft → q.1 ≤ ft - delay) ∧
    (∀ pre t a t2 b suf c, trace = pre ++ (t, a) :: (t2, b) :: suf →
      t2 < t + delay → (t + delay, c) ∉ quietFires delay trace) ∧
    (quietFires delay trace).Pairwise (fun p q => p.1 < q.1) ∧
    (∀ (resp : FetchResult Payload) (s : AppState),
      (search resp s).2 = none ∨ (search resp s).2 = some (searchUrl s.searchQuery)) := by
  refine ⟨rfl, fun d now a => rfl, quietFires_most_recent delay trace hs,
    ?_, quietFires_pairwise delay trace hs, ?_⟩
  · intro pre t a t2 b suf c hdec hlt
    rw [hdec] at hs ⊢
    exact quietFires_superseded delay pre t a t2 b suf c hs hlt
  · intro resp s
    cases resp <;> (simp only [search]; split <;> simp)

/-- The rapid-typing scenario trace: "p", "pi", "pik" within 300ms, then a
pause. -/
def typingTrace : List (Nat × String) :=
  [(0, "p"), (100, "pi"), (200, "pik")]

/-- Witness for C6 on `typingTrace`: the trace is strictly increasing, the
first two invocations are superseded and never execute, and the only
execution is at 500 with the final arguments. -/
theorem C6_debounce_contract_witness :
    typingTrace.Pairwise (fun p q => p.1 < q.1) ∧
    (300, "p") ∉ quietFires 300 typingTrace ∧
    (400, "pi") ∉ quietFires 300 typingTrace ∧
    quietFires 300 typingTrace = [(500, "pik")] := by
  have h := C6_debounce_contract 300 typingTrace (by decide)
  refine ⟨by decide, ?_, ?_, by decide⟩
  · have := h.2.2.2.1 [] 0 "p" 100 "pi" [(200, "pik")] "p" rfl (by decide)
    simpa using this
  · have := h.2.2.2.1 [(0, "p")] 100 "pi" 200 "pik" [] "pi" rfl (by decide)
    simpa using this
